import Mathlib

/-!
Shallow embedding of the diff / org-picker / config / function-create logic of
the `salesforcedx-vscode` extension sources, together with theorems settling
the frozen claims about them.

JavaScript conventions used throughout the embedding:
* a `string | undefined` value is an `Option String` (`none` = `undefined`);
* JS truthiness of such a value: defined and non-empty (`truthyStr`);
* a thrown exception is the `Except.error` branch of an `Except`;
* UI side effects (notifications, channel output, diff views, dispatched
  editor commands) are recorded as data in explicit effect records.
-/

namespace SfdxVscode

/-- JS truthiness of a `string | undefined` value: defined and non-empty. -/
def truthyStr : Option String → Bool
  | none => false
  | some s => !(s.isEmpty)

/-- JS `a || b` on `string | undefined` values: `b` when `a` is falsy. -/
def jsOrStr (a b : Option String) : Option String :=
  if truthyStr a then a else b

/-- The part of the character list before the first occurrence of `sep`
(the whole list when `sep` never occurs): the single segment produced by
JS `s.split(sep, 1)`. -/
def splitFirstAux (sep : List Char) : List Char → List Char
  | [] => []
  | c :: rest =>
    if List.isPrefixOf sep (c :: rest) then [] else c :: splitFirstAux sep rest

/-- JS `s.split(sep, 1)[0]`: the text before the first occurrence of `sep`. -/
def splitFirstStr (sep s : String) : String :=
  String.mk (splitFirstAux sep.data s.data)

/-- `noSepBreak sep a rest = true` when no occurrence of `sep` starts at any
position of `a` inside the concatenation `a ++ rest`. -/
def noSepBreak (sep : List Char) : List Char → List Char → Bool
  | [], _ => true
  | c :: a, rest =>
    !(List.isPrefixOf sep (c :: (a ++ rest))) && noSepBreak sep a rest

/-- JS template interpolation of a string array: elements joined by commas. -/
def joinComma (l : List String) : String :=
  String.intercalate "," l

/-- Model of the node `path.join` function on two segments. -/
def pathJoin (a b : String) : String :=
  a ++ "/" ++ b

/-! ### `nameVerification` (forceFunctionCreate.ts)

`nameVerification` throws on a bad function name and returns the empty
string on a good one; thrown errors are the `Except.error` branch. -/

/-- `[a-z]` character class test. -/
def isLowerAlpha (c : Char) : Bool :=
  'a' ≤ c && c ≤ 'z'

/-- `[a-z0-9]` character class test. -/
def isLowerAlnum (c : Char) : Bool :=
  isLowerAlpha c || ('0' ≤ c && c ≤ '9')

/-- JS `/^[a-z0-9]+$/.test value`: non-empty and all chars in `[a-z0-9]`. -/
def matchesLowerAlnumPlus (value : String) : Bool :=
  !(value.data.isEmpty) && value.data.all isLowerAlnum

/-- JS `/^[a-z]/.test value`: the first character exists and is in `[a-z]`. -/
def matchesLowerStart (value : String) : Bool :=
  match value.data with
  | [] => false
  | c :: _ => isLowerAlpha c

/-- Embedding of `nameVerification` from `forceFunctionCreate.ts`: length
check, then the `^[a-z0-9]+$` character-set check, then the `^[a-z]`
first-character check; returns the empty string when all pass. -/
def nameVerification (value : String) : Except String String :=
  if 47 < value.length then
    Except.error "Function names cannot contain more than 47 characters."
  else if !(matchesLowerAlnumPlus value) then
    Except.error "Name must contain only lowercase letters and numbers."
  else if !(matchesLowerStart value) then
    Except.error "Name must start with a letter."
  else
    Except.ok ""

/-! ### `ForceSourceDiffExecutor.build` (forceSourceDiff.ts)

Modelled from the spec: `SfdxCommandBuilder` and `Command` come from the
`salesforcedx-utils-vscode` package, which is not among the provided sources.
The spec describes commands for "the external Salesforce command-line tool
invoked as a subprocess", built from a textual description, positional
arguments, flags carrying values, and an optional request for JSON output;
the builder below records exactly those pieces. -/

structure Command where
  description : String
  args : List String
  flags : List (String × String)
  logName : String
  json : Bool
deriving DecidableEq, Repr

structure SfdxCommandBuilder where
  description : String := ""
  args : List String := []
  flags : List (String × String) := []
  logName : String := ""
  json : Bool := false

def SfdxCommandBuilder.withDescription (b : SfdxCommandBuilder) (d : String) :
    SfdxCommandBuilder :=
  { b with description := d }

def SfdxCommandBuilder.withArg (b : SfdxCommandBuilder) (a : String) :
    SfdxCommandBuilder :=
  { b with args := b.args ++ [a] }

def SfdxCommandBuilder.withLogName (b : SfdxCommandBuilder) (n : String) :
    SfdxCommandBuilder :=
  { b with logName := n }

def SfdxCommandBuilder.withFlag (b : SfdxCommandBuilder) (f v : String) :
    SfdxCommandBuilder :=
  { b with flags := b.flags ++ [(f, v)] }

def SfdxCommandBuilder.withJson (b : SfdxCommandBuilder) : SfdxCommandBuilder :=
  { b with json := true }

def SfdxCommandBuilder.build (b : SfdxCommandBuilder) : Command :=
  ⟨b.description, b.args, b.flags, b.logName, b.json⟩

/-- Embedding of `ForceSourceDiffExecutor.build`: the builder chain from
`forceSourceDiff.ts`. `nls` stands for `nls.localize` on a message key. -/
def forceSourceDiffBuild (nls : String → String) (filePath : String) : Command :=
  (((((SfdxCommandBuilder.mk "" [] [] "" false).withDescription
      (nls "force_source_diff_text")).withArg
      "force:source:diff").withLogName
      "force_source_diff").withFlag
      "--sourcepath" filePath).withJson.build

/-! ### `ConfigUtil` (configUtil.ts)

The external `@salesforce/core` lookups are an environment record:
`localLookup` is `ConfigFile.create({isGlobal: false, ...}).get(key)` and
`globalLookup` is `ConfigAggregator.create().getPropertyValue(key)`, each of
which may throw (`Except.error`) or produce a possibly null-or-undefined
value (`Option V`, `none` meaning `null`/`undefined`). -/

inductive ConfigSource where
  | Local
  | Global
  | None
deriving DecidableEq, Repr

structure ConfigEnv (V : Type) where
  localLookup : String → Except String (Option V)
  globalLookup : String → Except String (Option V)

/-- Embedding of `ConfigUtil.getConfigValue`: when `source` is undefined or
`Local`, try the local config file (a thrown error returns `undefined`, a
non-null value is returned); then, when `source` is undefined or `Global`,
try the aggregator the same way; otherwise return `undefined`. -/
def getConfigValue {V : Type} (env : ConfigEnv V) (key : String)
    (source : Option ConfigSource) : Option V :=
  let localStep : Option (Option V) :=
    if source = none ∨ source = some ConfigSource.Local then
      match env.localLookup key with
      | Except.error _ => some none
      | Except.ok v => if v.isSome then some v else none
    else none
  match localStep with
  | some r => r
  | none =>
    if source = none ∨ source = some ConfigSource.Global then
      match env.globalLookup key with
      | Except.error _ => none
      | Except.ok v => if v.isSome then v else none
    else none

/-- Embedding of `ConfigUtil.getSfConfigValue`, whose body in `configUtil.ts`
is textually identical to that of `getConfigValue`. -/
def getSfConfigValue {V : Type} (env : ConfigEnv V) (key : String)
    (source : Option ConfigSource) : Option V :=
  let localStep : Option (Option V) :=
    if source = none ∨ source = some ConfigSource.Local then
      match env.localLookup key with
      | Except.error _ => some none
      | Except.ok v => if v.isSome then some v else none
    else none
  match localStep with
  | some r => r
  | none =>
    if source = none ∨ source = some ConfigSource.Global then
      match env.globalLookup key with
      | Except.error _ => none
      | Except.ok v => if v.isSome then v else none
    else none

/-- Embedding of `ConfigUtil.getConfigSource`: `Local` when the local lookup
gives a non-null value, else `Global` when the global lookup does, else
`None`. -/
def getConfigSource {V : Type} (env : ConfigEnv V) (key : String) :
    ConfigSource :=
  if (getSfConfigValue env key (some ConfigSource.Local)).isSome then
    ConfigSource.Local
  else if (getSfConfigValue env key (some ConfigSource.Global)).isSome then
    ConfigSource.Global
  else
    ConfigSource.None

/-! ### `handleDiffResponse` (forceSourceDiff.ts)

The external `DiffResultParser` (from the `salesforcedx-utils-vscode`
package) is abstracted as a function `parse : String → DiffParse` giving,
for the captured stdout: a success response with remote/local paths and a
file name, an error response with a message, neither, or a thrown parse
failure. Side effects are recorded in a `DiffEffects` record. -/

inductive DiffParse where
  | success (remote localPath fileName : String)
  | errorResp (message : String)
  | neither
  | invalid (message : String)
deriving DecidableEq, Repr

structure DiffEffects where
  errorNotifications : List String
  channelLines : List String
  channelShown : Bool
  diffOpened : Option (String × String × String)
  telemetryErrors : List String
deriving DecidableEq, Repr

/-- Embedding of `handleDiffResponse`: exit code 127 throws the localized
command-not-found error (caught below: notification, channel line, channel
shown, telemetry); otherwise a success parse opens the editor diff view on
the remote and local paths of the result; an error parse appends its message to
the channel and shows it; a parser throw is caught like the 127 error.
`localize` stands for `nls.localize` applied to a key and arguments. -/
def handleDiffResponse (localize : String → List (Option String) → String)
    (hasRoot : Bool) (defaultUA : Option String)
    (parse : String → DiffParse)
    (exitCode : Option Int) (stdOut : String) : DiffEffects :=
  if exitCode = some 127 then
    let msg := localize "force_source_diff_command_not_found" []
    { errorNotifications := [msg], channelLines := [msg], channelShown := true,
      diffOpened := none, telemetryErrors := [msg] }
  else
    match parse stdOut with
    | DiffParse.success remote localPath fileName =>
      let ua := if hasRoot then defaultUA else none
      { errorNotifications := [], channelLines := [], channelShown := false,
        diffOpened := some (remote, localPath,
          localize "force_source_diff_title" [ua, some fileName, some fileName]),
        telemetryErrors := [] }
    | DiffParse.errorResp m =>
      { errorNotifications := [], channelLines := [m], channelShown := true,
        diffOpened := none, telemetryErrors := [] }
    | DiffParse.neither =>
      { errorNotifications := [], channelLines := [], channelShown := false,
        diffOpened := none, telemetryErrors := [] }
    | DiffParse.invalid m =>
      { errorNotifications := [m], channelLines := [m], channelShown := true,
        diffOpened := none, telemetryErrors := [m] }

/-! ### `OrgList` (orgPicker/orgList.ts)

External services are abstracted as parameters: `nls` is `nls.localize` on a
message key; `fields` gives, per username, the `AuthFields` that
`AuthInfo.create({username}).getFields()` reports; `defaultDevHubUsername`
is the resolved default Dev Hub username; `parseDate` is JS
`new Date(string).valueOf()` (`none` = invalid date, whose comparisons are
all false) and `today` the current timestamp; `pick` is
`vscode.window.showQuickPick` (`none` = dismissed). -/

structure OrgAuthorization where
  username : String
  aliases : Option (List String)
deriving DecidableEq, Repr

structure AuthFields where
  scratchAdminUsername : Option String
  devHubUsername : Option String
  expirationDate : Option String
deriving DecidableEq, Repr

/-- JS `authFields.expirationDate ? today >= new Date(authFields.expirationDate) : false`. -/
def isExpired (parseDate : String → Option Int) (today : Int)
    (expirationDate : Option String) : Bool :=
  match expirationDate with
  | none => false
  | some s =>
    if s.isEmpty then false
    else
      match parseDate s with
      | none => false
      | some d => decide (d ≤ today)

/-- The text appended to an expired org entry: a separator, the localized
org_expired message, a space and the cross-mark character (code point
0x274c). -/
def expiredSuffix (nls : String → String) : String :=
  " - " ++ nls "org_expired" ++ " " ++ "❌"

/-- One quick-pick entry of `filterAuthInfo`: the comma-joined aliases,
`" - "` and the username when aliases exist, the bare username otherwise,
with the expired suffix appended when expired. -/
def orgEntry (nls : String → String) (auth : OrgAuthorization)
    (expired : Bool) : String :=
  let base :=
    match auth.aliases with
    | some (a :: rest) => joinComma (a :: rest) ++ " - " ++ auth.username
    | _ => auth.username
  if expired then base ++ expiredSuffix nls else base

/-- The survival condition of the loop in `filterAuthInfo`: not skipped by
the `scratchAdminUsername` check nor by the `devHubUsername` check. -/
def keepAuth (fields : String → AuthFields)
    (defaultDevHubUsername : Option String) (auth : OrgAuthorization) : Bool :=
  let f := fields auth.username
  if truthyStr f.scratchAdminUsername then false
  else if truthyStr f.devHubUsername
      && decide (f.devHubUsername ≠ defaultDevHubUsername) then false
  else true

/-- Embedding of `OrgList.filterAuthInfo`: skip orgs with a truthy
`scratchAdminUsername`, skip orgs whose truthy `devHubUsername` differs from
the resolved default Dev Hub username, and push one `orgEntry` per surviving
org, in order. -/
def filterAuthInfo (nls : String → String) (fields : String → AuthFields)
    (defaultDevHubUsername : Option String) (parseDate : String → Option Int)
    (today : Int) : List OrgAuthorization → List String
  | [] => []
  | auth :: rest =>
    let f := fields auth.username
    if truthyStr f.scratchAdminUsername then
      filterAuthInfo nls fields defaultDevHubUsername parseDate today rest
    else if truthyStr f.devHubUsername
        && decide (f.devHubUsername ≠ defaultDevHubUsername) then
      filterAuthInfo nls fields defaultDevHubUsername parseDate today rest
    else
      orgEntry nls auth (isExpired parseDate today f.expirationDate) ::
        filterAuthInfo nls fields defaultDevHubUsername parseDate today rest

/-- Embedding of `OrgList.displayDefaultUsername`: the status-bar text it
sets — `"$(plug) "` plus the identifier when one is (truthily) provided, the
localized missing-default-org text otherwise. -/
def displayDefaultUsername (nls : String → String)
    (defaultUsernameOrAlias : Option String) : String :=
  if truthyStr defaultUsernameOrAlias then
    "$(plug) " ++ defaultUsernameOrAlias.getD ""
  else
    nls "missing_default_org"

/-- The status-bar text produced on an org-change event (and at
construction): `displayDefaultUsername(orgInfo.alias || orgInfo.username)`. -/
def orgChangeStatusText (nls : String → String)
    (orgAlias username : Option String) : String :=
  displayDefaultUsername nls (jsOrStr orgAlias username)

/-- The five fixed authorization/creation quick-pick entries of
`setDefaultOrg`, in order. -/
def fixedEntries (nls : String → String) : List String :=
  ["$(plus) " ++ nls "force_auth_web_login_authorize_org_text",
    "$(plus) " ++ nls "force_auth_web_login_authorize_dev_hub_text",
    "$(plus) " ++ nls "force_org_create_default_scratch_org_text",
    "$(plus) " ++ nls "force_auth_access_token_authorize_org_text",
    "$(plus) " ++ nls "force_org_list_clean_text"]

/-- The editor commands dispatched for the five fixed entries, in the same
order. -/
def orgQuickPickCommands : List String :=
  ["sfdx.force.auth.web.login", "sfdx.force.auth.dev.hub",
    "sfdx.force.org.create", "sfdx.force.auth.accessToken",
    "sfdx.force.org.list.clean"]

/-- The quick-pick list shown by `setDefaultOrg`: the fixed entries, with the
org list appended when `updateOrgList` produced one. -/
def quickPickListOf (nls : String → String)
    (authInfoList : Option (List String)) : List String :=
  match authInfoList with
  | some l => fixedEntries nls ++ l
  | none => fixedEntries nls

/-- Result of `setDefaultOrg`: the response (`"CANCEL"` or `"CONTINUE"` with
an empty-object `data`) and the editor command dispatched via
`vscode.commands.executeCommand`, with its extra arguments. -/
structure SetDefaultOrgResult where
  responseType : String
  data : Option (List (String × String))
  command : Option (String × List String)
deriving DecidableEq, Repr

/-- Embedding of `OrgList.setDefaultOrg`: the JS `if (!selection)` check is
a falsiness test, so it returns `"CANCEL"` both when the quick-pick is
dismissed (`undefined`) and when the selected item is the empty string; each
fixed entry dispatches its command; any other (non-empty) selection
dispatches `"sfdx.force.config.set"` with `selection.split(" - ", 1)`. -/
def setDefaultOrg (nls : String → String)
    (authInfoList : Option (List String))
    (pick : List String → Option String) : SetDefaultOrgResult :=
  match pick (quickPickListOf nls authInfoList) with
  | none => { responseType := "CANCEL", data := none, command := none }
  | some selection =>
    if selection = "" then
      { responseType := "CANCEL", data := none, command := none }
    else if selection = "$(plus) " ++ nls "force_auth_web_login_authorize_org_text" then
      { responseType := "CONTINUE", data := some [],
        command := some ("sfdx.force.auth.web.login", []) }
    else if selection = "$(plus) " ++ nls "force_auth_web_login_authorize_dev_hub_text" then
      { responseType := "CONTINUE", data := some [],
        command := some ("sfdx.force.auth.dev.hub", []) }
    else if selection = "$(plus) " ++ nls "force_org_create_default_scratch_org_text" then
      { responseType := "CONTINUE", data := some [],
        command := some ("sfdx.force.org.create", []) }
    else if selection = "$(plus) " ++ nls "force_auth_access_token_authorize_org_text" then
      { responseType := "CONTINUE", data := some [],
        command := some ("sfdx.force.auth.accessToken", []) }
    else if selection = "$(plus) " ++ nls "force_org_list_clean_text" then
      { responseType := "CONTINUE", data := some [],
        command := some ("sfdx.force.org.list.clean", []) }
    else
      { responseType := "CONTINUE", data := some [],
        command := some ("sfdx.force.config.set",
          [splitFirstStr " - " selection]) }

/-! ### `handleCacheResults` (forceSourceDiff.ts)

`α` stands for the external `SourceComponent` type, `δ` for the diff list
produced by the external `CommonDirDirectoryDiffer`, abstracted as
`differ : String → String → δ` on a local and a remote path. -/

structure ComponentCache (α : Type) where
  baseDirectory : String
  commonRoot : String
  components : Option (List α)
deriving DecidableEq, Repr

structure ProjectInfo where
  baseDirectory : String
  commonRoot : String
deriving DecidableEq, Repr

structure MetadataCacheResult (α : Type) where
  selectedPath : String
  selectedIsDirectory : Bool
  cachePropPath : Option String
  cache : ComponentCache α
  project : ProjectInfo
deriving DecidableEq, Repr

inductive CacheEffect (α δ : Type) where
  | diffFile (localFile : String) (component : Option α)
  | visualize (title username : String) (visible : Bool) (diffs : δ)
  | errorNotify (message : String)
  | noOp
deriving DecidableEq, Repr

/-- Embedding of `handleCacheResults`: a single-file selection with (truthy)
cached components diffs the selected path against `components[0]`; a
directory selection runs the directory differ on the joined project paths
against the joined cache paths and hands the diffs to the conflict view; no
cache result shows an error notification. -/
def handleCacheResults {α δ : Type} (differ : String → String → δ) :
    Option (MetadataCacheResult α) → CacheEffect α δ
  | some cache =>
    if !cache.selectedIsDirectory && cache.cache.components.isSome then
      CacheEffect.diffFile cache.selectedPath
        ((cache.cache.components.getD []).head?)
    else if cache.selectedIsDirectory then
      CacheEffect.visualize "PDTDevHub2 - File Diffs" "PDTDevHub2" true
        (differ
          (pathJoin cache.project.baseDirectory cache.project.commonRoot)
          (pathJoin cache.cache.baseDirectory cache.cache.commonRoot))
    else CacheEffect.noOp
  | none =>
    CacheEffect.errorNotify "Selected components are not available in the org"

end SfdxVscode

namespace SfdxVscode

theorem isPrefixOf_append_self (l t : List Char) :
    List.isPrefixOf l (l ++ t) = true := by
  induction l with
  | nil => simp [List.isPrefixOf]
  | cons c cs ih => simp [List.isPrefixOf, ih]

theorem splitFirstAux_cons (sep : List Char) (c : Char) (rest : List Char) :
    splitFirstAux sep (c :: rest) =
      if List.isPrefixOf sep (c :: rest) then [] else c :: splitFirstAux sep rest :=
  rfl

theorem splitFirstAux_append (sep a b : List Char) (hsep : sep ≠ [])
    (hclean : noSepBreak sep a (sep ++ b) = true) :
    splitFirstAux sep (a ++ (sep ++ b)) = a := by
  induction a with
  | nil =>
    obtain ⟨c, cs, rfl⟩ : ∃ c cs, sep = c :: cs := by
      cases sep with
      | nil => exact absurd rfl hsep
      | cons c cs => exact ⟨c, cs, rfl⟩
    rw [List.nil_append, List.cons_append, splitFirstAux_cons, if_pos]
    have h := isPrefixOf_append_self (c :: cs) b
    rw [List.cons_append] at h
    exact h
  | cons c a ih =>
    simp only [noSepBreak, Bool.and_eq_true, Bool.not_eq_true'] at hclean
    obtain ⟨hnp, hrec⟩ := hclean
    rw [List.cons_append, splitFirstAux_cons, if_neg (by simp [hnp]), ih hrec]

theorem splitFirstAux_of_noOccur (sep a : List Char)
    (hclean : noSepBreak sep a [] = true) :
    splitFirstAux sep a = a := by
  induction a with
  | nil => rfl
  | cons c a ih =>
    simp only [noSepBreak, List.append_nil, Bool.and_eq_true,
      Bool.not_eq_true'] at hclean
    obtain ⟨hnp, hrec⟩ := hclean
    rw [splitFirstAux_cons, if_neg (by simp [hnp]), ih hrec]

/-- C9: `nameVerification` succeeds (returning the empty string) exactly on strings of
length at most 47 that start with a lowercase letter and consist only of
lowercase letters and digits; every other string (the empty string included)
yields an error, the length error first, then the character-set error, then
the must-start-with-a-letter error. -/
theorem nameVerification_spec (value : String) :
    (nameVerification value = Except.ok "" ↔
      (value.length ≤ 47 ∧ matchesLowerStart value = true ∧
        value.data ≠ [] ∧ ∀ c ∈ value.data, isLowerAlnum c = true)) ∧
    (47 < value.length →
      nameVerification value =
        Except.error "Function names cannot contain more than 47 characters.") ∧
    (value.length ≤ 47 → matchesLowerAlnumPlus value = false →
      nameVerification value =
        Except.error "Name must contain only lowercase letters and numbers.") ∧
    (value.length ≤ 47 → matchesLowerAlnumPlus value = true →
      matchesLowerStart value = false →
      nameVerification value = Except.error "Name must start with a letter.") := by
  refine ⟨?_, ?_, ?_, ?_⟩
  · constructor
    · intro h
      unfold nameVerification at h
      by_cases hl : 47 < value.length
      · rw [if_pos hl] at h
        simp at h
      · rw [if_neg hl] at h
        by_cases ha : matchesLowerAlnumPlus value = true
        · rw [ha] at h
          simp only [Bool.not_true, Bool.false_eq_true, if_false] at h
          by_cases hs : matchesLowerStart value = true
          · simp only [matchesLowerAlnumPlus, Bool.and_eq_true,
              Bool.not_eq_true', List.all_eq_true] at ha
            refine ⟨by omega, hs, ?_, ha.2⟩
            intro hnil
            rw [hnil] at ha
            simp [List.isEmpty] at ha
          · have hs' : matchesLowerStart value = false := by
              revert hs
              cases matchesLowerStart value <;> simp
            rw [hs'] at h
            simp at h
        · have ha' : matchesLowerAlnumPlus value = false := by
            revert ha
            cases matchesLowerAlnumPlus value <;> simp
          rw [ha'] at h
          simp at h
    · rintro ⟨h1, h2, h3, h4⟩
      have ha : matchesLowerAlnumPlus value = true := by
        simp only [matchesLowerAlnumPlus, Bool.and_eq_true, Bool.not_eq_true',
          List.all_eq_true]
        refine ⟨?_, h4⟩
        cases hd : value.data with
        | nil => exact absurd hd h3
        | cons c cs => simp [List.isEmpty]
      unfold nameVerification
      rw [if_neg (by omega), if_neg (by simp [ha]), if_neg (by simp [h2])]
  · intro h
    unfold nameVerification
    rw [if_pos h]
  · intro h1 h2
    unfold nameVerification
    rw [if_neg (by omega), if_pos (by simp [h2])]
  · intro h1 h2 h3
    unfold nameVerification
    rw [if_neg (by omega), if_neg (by simp [h2]), if_pos (by simp [h3])]

/-- Witness for C9 at concrete inputs: a valid name, an over-long name, a
name with an illegal character (and the empty string), and a name starting
with a digit. -/
theorem nameVerification_spec_witness :
    nameVerification "fn42" = Except.ok "" ∧
    nameVerification
        "aaaaaaaaaaaaaaaaaaaaaaaaaaaaaaaaaaaaaaaaaaaaaaaa" =
      Except.error "Function names cannot contain more than 47 characters." ∧
    nameVerification "Bad_Name" =
      Except.error "Name must contain only lowercase letters and numbers." ∧
    nameVerification "" =
      Except.error "Name must contain only lowercase letters and numbers." ∧
    nameVerification "9abc" = Except.error "Name must start with a letter." := by
  refine ⟨?_, ?_, ?_, ?_, ?_⟩
  · exact (nameVerification_spec "fn42").1.mpr (by decide)
  · exact (nameVerification_spec
      "aaaaaaaaaaaaaaaaaaaaaaaaaaaaaaaaaaaaaaaaaaaaaaaa").2.1 (by decide)
  · exact (nameVerification_spec "Bad_Name").2.2.1 (by decide) (by decide)
  · exact (nameVerification_spec "").2.2.1 (by decide) (by decide)
  · exact (nameVerification_spec "9abc").2.2.2 (by decide) (by decide) (by decide)

/-- C2: for every file path, `ForceSourceDiffExecutor.build` produces a CLI
command whose sole positional argument is `force:source:diff`, whose only
flag is `--sourcepath` carrying exactly that file path, and which requests
JSON output. -/
theorem forceSourceDiffBuild_spec (nls : String → String) (filePath : String) :
    (forceSourceDiffBuild nls filePath).args = ["force:source:diff"] ∧
    (forceSourceDiffBuild nls filePath).flags = [("--sourcepath", filePath)] ∧
    (forceSourceDiffBuild nls filePath).json = true ∧
    (forceSourceDiffBuild nls filePath).description = nls "force_source_diff_text" ∧
    (forceSourceDiffBuild nls filePath).logName = "force_source_diff" := by
  refine ⟨rfl, rfl, rfl, rfl, rfl⟩

theorem getSfConfigValue_source_char {V : Type} (env : ConfigEnv V) (key : String) :
    ((getSfConfigValue env key (some ConfigSource.Local)).isSome = true ↔
      ∃ v, env.localLookup key = Except.ok (some v)) ∧
    ((getSfConfigValue env key (some ConfigSource.Global)).isSome = true ↔
      ∃ v, env.globalLookup key = Except.ok (some v)) := by
  constructor
  · unfold getSfConfigValue
    cases hl : env.localLookup key with
    | error e => simp [hl]
    | ok v =>
      cases v with
      | none => simp [hl]
      | some x => simp [hl]
  · unfold getSfConfigValue
    cases hg : env.globalLookup key with
    | error e => simp [hg]
    | ok v =>
      cases v with
      | none => simp [hg]
      | some x => simp [hg]

/-- C8: `ConfigUtil.getConfigValue` and `ConfigUtil.getSfConfigValue` are
extensionally equal: for every environment, key and source argument
(`Local`, `Global` or omitted) they perform the same lookups and return
identical results, including `undefined` on the same error conditions. -/
theorem getConfigValue_eq_getSfConfigValue {V : Type} (env : ConfigEnv V)
    (key : String) (source : Option ConfigSource) :
    getConfigValue env key source = getSfConfigValue env key source := rfl

/-- C3: `ConfigUtil.getConfigSource` returns `Local` exactly when the local
config lookup yields a non-null, non-undefined value; otherwise `Global`
exactly when the global aggregator yields such a value; and `None` when
neither does — local wins over global. -/
theorem getConfigSource_spec {V : Type} (env : ConfigEnv V) (key : String) :
    (getConfigSource env key = ConfigSource.Local ↔
      ∃ v, env.localLookup key = Except.ok (some v)) ∧
    (getConfigSource env key = ConfigSource.Global ↔
      (¬ ∃ v, env.localLookup key = Except.ok (some v)) ∧
        ∃ v, env.globalLookup key = Except.ok (some v)) ∧
    (getConfigSource env key = ConfigSource.None ↔
      (¬ ∃ v, env.localLookup key = Except.ok (some v)) ∧
        ¬ ∃ v, env.globalLookup key = Except.ok (some v)) := by
  obtain ⟨hloc, hglob⟩ := getSfConfigValue_source_char env key
  unfold getConfigSource
  by_cases h1 : (getSfConfigValue env key (some ConfigSource.Local)).isSome = true
  · rw [if_pos h1]
    exact ⟨iff_of_true rfl (hloc.mp h1),
      iff_of_false (by decide) (fun hc => hc.1 (hloc.mp h1)),
      iff_of_false (by decide) (fun hc => hc.1 (hloc.mp h1))⟩
  · rw [if_neg h1]
    have hnl : ¬ ∃ v, env.localLookup key = Except.ok (some v) :=
      fun hex => h1 (hloc.mpr hex)
    by_cases h2 : (getSfConfigValue env key (some ConfigSource.Global)).isSome = true
    · rw [if_pos h2]
      exact ⟨iff_of_false (by decide) (fun hex => h1 (hloc.mpr hex)),
        iff_of_true rfl ⟨hnl, hglob.mp h2⟩,
        iff_of_false (by decide) (fun hc => hc.2 (hglob.mp h2))⟩
    · rw [if_neg h2]
      have hng : ¬ ∃ v, env.globalLookup key = Except.ok (some v) :=
        fun hex => h2 (hglob.mpr hex)
      exact ⟨iff_of_false (by decide) (fun hex => h1 (hloc.mpr hex)),
        iff_of_false (by decide) (fun hc => hng hc.2),
        iff_of_true rfl ⟨hnl, hng⟩⟩

/-- C1: `handleDiffResponse` by cases on the exit code and parsed stdout:
exit code 127 reports the localized command-not-found error through a
notification, appends it to the output channel, shows the channel and opens
no diff view; otherwise a successful parse opens the editor diff view on the
remote and local paths from the result; an error parse appends the error
message to the channel and shows it, opening no diff view. -/
theorem handleDiffResponse_cases
    (localize : String → List (Option String) → String)
    (hasRoot : Bool) (defaultUA : Option String) (parse : String → DiffParse)
    (exitCode : Option Int) (stdOut : String) :
    (exitCode = some 127 →
      (handleDiffResponse localize hasRoot defaultUA parse exitCode
          stdOut).errorNotifications
        = [localize "force_source_diff_command_not_found" []] ∧
      (handleDiffResponse localize hasRoot defaultUA parse exitCode
          stdOut).channelLines
        = [localize "force_source_diff_command_not_found" []] ∧
      (handleDiffResponse localize hasRoot defaultUA parse exitCode
          stdOut).channelShown = true ∧
      (handleDiffResponse localize hasRoot defaultUA parse exitCode
          stdOut).diffOpened = none) ∧
    (∀ remote localPath fileName, exitCode ≠ some 127 →
      parse stdOut = DiffParse.success remote localPath fileName →
      (handleDiffResponse localize hasRoot defaultUA parse exitCode
          stdOut).diffOpened
        = some (remote, localPath,
            localize "force_source_diff_title"
              [(if hasRoot then defaultUA else none), some fileName,
                some fileName]) ∧
      (handleDiffResponse localize hasRoot defaultUA parse exitCode
          stdOut).channelLines = [] ∧
      (handleDiffResponse localize hasRoot defaultUA parse exitCode
          stdOut).errorNotifications = []) ∧
    (∀ m, exitCode ≠ some 127 → parse stdOut = DiffParse.errorResp m →
      (handleDiffResponse localize hasRoot defaultUA parse exitCode
          stdOut).channelLines = [m] ∧
      (handleDiffResponse localize hasRoot defaultUA parse exitCode
          stdOut).channelShown = true ∧
      (handleDiffResponse localize hasRoot defaultUA parse exitCode
          stdOut).diffOpened = none) := by
  refine ⟨?_, ?_, ?_⟩
  · intro h
    simp [handleDiffResponse, h]
  · intro remote localPath fileName hne hp
    simp [handleDiffResponse, hne, hp]
  · intro m hne hp
    simp [handleDiffResponse, hne, hp]

/-- Witness for C1 at concrete inputs: exit code 127, a successful parse at
exit code 0, and an error parse at exit code 0. -/
theorem handleDiffResponse_cases_witness :
    (handleDiffResponse (fun k _ => k) true none (fun _ => DiffParse.neither)
        (some 127) "").errorNotifications
      = ["force_source_diff_command_not_found"] ∧
    (handleDiffResponse (fun k _ => k) true none (fun _ => DiffParse.neither)
        (some 127) "").diffOpened = none ∧
    (handleDiffResponse (fun k _ => k) true none
        (fun s => if s = "ok" then DiffParse.success "remotePath" "localPath" "f"
          else DiffParse.errorResp "boom")
        (some 0) "ok").diffOpened
      = some ("remotePath", "localPath", "force_source_diff_title") ∧
    (handleDiffResponse (fun k _ => k) true none
        (fun s => if s = "ok" then DiffParse.success "remotePath" "localPath" "f"
          else DiffParse.errorResp "boom")
        (some 0) "x").channelLines = ["boom"] := by
  have h1 := (handleDiffResponse_cases (fun k _ => k) true none
    (fun _ => DiffParse.neither) (some 127) "").1 rfl
  have h2 := (handleDiffResponse_cases (fun k _ => k) true none
    (fun s => if s = "ok" then DiffParse.success "remotePath" "localPath" "f"
      else DiffParse.errorResp "boom") (some 0) "ok").2.1
    "remotePath" "localPath" "f" (by decide) (by decide)
  have h3 := (handleDiffResponse_cases (fun k _ => k) true none
    (fun s => if s = "ok" then DiffParse.success "remotePath" "localPath" "f"
      else DiffParse.errorResp "boom") (some 0) "x").2.2
    "boom" (by decide) (by decide)
  exact ⟨h1.1, h1.2.2.2, h2.1, h3.1⟩

/-- C5: the status-bar text on an org-change event (and at construction) is
built from the alias whenever the alias is a defined non-empty string and
from the username otherwise; `displayDefaultUsername` sets `"$(plug) "`
followed by the identifier when a non-empty one is given, and the localized
missing-default-org text when the argument is absent or empty. -/
theorem displayDefaultUsername_spec (nls : String → String)
    (orgAlias username arg : Option String) :
    (truthyStr orgAlias = true →
      orgChangeStatusText nls orgAlias username
        = "$(plug) " ++ orgAlias.getD "") ∧
    (truthyStr orgAlias = false →
      orgChangeStatusText nls orgAlias username
        = displayDefaultUsername nls username) ∧
    (∀ s, arg = some s → s ≠ "" →
      displayDefaultUsername nls arg = "$(plug) " ++ s) ∧
    (arg = none ∨ arg = some "" →
      displayDefaultUsername nls arg = nls "missing_default_org") := by
  refine ⟨?_, ?_, ?_, ?_⟩
  · intro h
    unfold orgChangeStatusText jsOrStr
    rw [if_pos h]
    unfold displayDefaultUsername
    rw [if_pos h]
  · intro h
    unfold orgChangeStatusText jsOrStr
    rw [if_neg (by simp [h])]
  · intro s hs hne
    have ht : truthyStr arg = true := by
      rw [hs]
      simp only [truthyStr, Bool.not_eq_true']
      exact Bool.eq_false_iff.mpr (fun he => hne ((String.isEmpty_iff s).mp he))
    unfold displayDefaultUsername
    rw [if_pos ht, hs]
    rfl
  · intro h
    have ht : truthyStr arg = false := by
      rcases h with h | h
      · simp [h, truthyStr]
      · rw [h]
        decide
    unfold displayDefaultUsername
    rw [if_neg (by simp [ht])]

/-- Witness for C5 at concrete inputs: a non-empty alias, an empty alias
falling back to the username, and the missing-org text for an absent and for
an empty identifier. -/
theorem displayDefaultUsername_spec_witness :
    orgChangeStatusText (fun k => k) (some "myAlias") (some "user@x.com")
      = "$(plug) myAlias" ∧
    orgChangeStatusText (fun k => k) (some "") (some "user@x.com")
      = "$(plug) user@x.com" ∧
    displayDefaultUsername (fun k => k) none = "missing_default_org" ∧
    displayDefaultUsername (fun k => k) (some "") = "missing_default_org" := by
  have h1 := (displayDefaultUsername_spec (fun k => k) (some "myAlias")
    (some "user@x.com") none).1 (by decide)
  have h2 := (displayDefaultUsername_spec (fun k => k) (some "")
    (some "user@x.com") none).2.1 (by decide)
  have h3 := (displayDefaultUsername_spec (fun k => k) (some "")
    (some "user@x.com") (some "user@x.com")).2.2.1 "user@x.com" rfl
    (by decide)
  have h4 := (displayDefaultUsername_spec (fun k => k) none none none).2.2.2
    (Or.inl rfl)
  have h5 := (displayDefaultUsername_spec (fun k => k) none none
    (some "")).2.2.2 (Or.inr rfl)
  exact ⟨h1, h2.trans h3, h4, h5⟩

/-- C6: `handleCacheResults` dispatches on the selection kind: a directory
selection feeds the generic directory differ the project base directory
joined with its common root (local) against the cache base directory
joined with its common root (remote) and passes the diffs to the conflict
view; a single-file selection with cached components diffs the selected file
against the first cached component; a missing cache result shows the
components-not-available error notification. -/
theorem handleCacheResults_spec {α δ : Type} (differ : String → String → δ)
    (cache : MetadataCacheResult α) :
    (cache.selectedIsDirectory = true →
      handleCacheResults differ (some cache)
        = CacheEffect.visualize "PDTDevHub2 - File Diffs" "PDTDevHub2" true
            (differ
              (pathJoin cache.project.baseDirectory cache.project.commonRoot)
              (pathJoin cache.cache.baseDirectory cache.cache.commonRoot))) ∧
    (∀ c rest, cache.selectedIsDirectory = false →
      cache.cache.components = some (c :: rest) →
      handleCacheResults differ (some cache)
        = CacheEffect.diffFile cache.selectedPath (some c)) ∧
    handleCacheResults differ (none : Option (MetadataCacheResult α))
      = CacheEffect.errorNotify
          "Selected components are not available in the org" := by
  refine ⟨?_, ?_, rfl⟩
  · intro h
    simp [handleCacheResults, h]
  · intro c rest h hc
    simp [handleCacheResults, h, hc]

/-- Witness for C6 at concrete inputs: a directory selection and a
single-file selection with one cached component, with the differ recording
the path pair it was given. -/
theorem handleCacheResults_spec_witness :
    handleCacheResults (fun a b => (a, b))
        (some (⟨"/proj/sel", true, none, ⟨"/cacheBase", "common", none⟩,
          ⟨"/projBase", "common"⟩⟩ : MetadataCacheResult String))
      = CacheEffect.visualize "PDTDevHub2 - File Diffs" "PDTDevHub2" true
          ("/projBase/common", "/cacheBase/common") ∧
    handleCacheResults (fun a b => (a, b))
        (some (⟨"/proj/classes/A.cls", false, none,
          ⟨"/cacheBase", "common", some ["comp1"]⟩,
          ⟨"/projBase", "common"⟩⟩ : MetadataCacheResult String))
      = CacheEffect.diffFile "/proj/classes/A.cls" (some "comp1") := by
  have h1 := (handleCacheResults_spec (fun a b => (a, b))
    (⟨"/proj/sel", true, none, ⟨"/cacheBase", "common", none⟩,
      ⟨"/projBase", "common"⟩⟩ : MetadataCacheResult String)).1 rfl
  have h2 := (handleCacheResults_spec (fun a b => (a, b))
    (⟨"/proj/classes/A.cls", false, none,
      ⟨"/cacheBase", "common", some ["comp1"]⟩,
      ⟨"/projBase", "common"⟩⟩ : MetadataCacheResult String)).2.1
    "comp1" [] rfl rfl
  exact ⟨h1, h2⟩

/-- C10 (amended): `filterAuthInfo` drops exactly the orgs with a truthy
(non-empty) `scratchAdminUsername` and the orgs whose truthy (non-empty)
`devHubUsername` differs from the resolved default Dev Hub username; every
surviving org produces exactly one entry, in the input order. -/
theorem filterAuthInfo_filter_map (nls : String → String)
    (fields : String → AuthFields) (defaultDevHubUsername : Option String)
    (parseDate : String → Option Int) (today : Int)
    (orgs : List OrgAuthorization) :
    filterAuthInfo nls fields defaultDevHubUsername parseDate today orgs
      = (orgs.filter (keepAuth fields defaultDevHubUsername)).map
          (fun a => orgEntry nls a
            (isExpired parseDate today (fields a.username).expirationDate)) ∧
    (∀ a : OrgAuthorization,
      keepAuth fields defaultDevHubUsername a = false ↔
        (truthyStr (fields a.username).scratchAdminUsername = true ∨
          (truthyStr (fields a.username).devHubUsername = true ∧
            (fields a.username).devHubUsername ≠ defaultDevHubUsername))) := by
  constructor
  · induction orgs with
    | nil => rfl
    | cons a rest ih =>
      by_cases h1 : truthyStr (fields a.username).scratchAdminUsername = true
      · simp [filterAuthInfo, keepAuth, h1, List.filter_cons, ih]
      · by_cases h2 : truthyStr (fields a.username).devHubUsername = true
        · by_cases h3 : (fields a.username).devHubUsername = defaultDevHubUsername
          · simp [filterAuthInfo, keepAuth, h1, h2, h3, List.filter_cons, ih]
          · simp [filterAuthInfo, keepAuth, h1, h2, h3, List.filter_cons, ih]
        · simp [filterAuthInfo, keepAuth, h1, h2, List.filter_cons, ih]
  · intro a
    unfold keepAuth
    by_cases h1 : truthyStr (fields a.username).scratchAdminUsername = true
    · simp [h1]
    · by_cases h2 : truthyStr (fields a.username).devHubUsername = true
      · by_cases h3 : (fields a.username).devHubUsername = defaultDevHubUsername
        · simp [h1, h2, h3]
        · simp [h1, h2, h3]
      · simp [h1, h2]

/-- Counterexample for C10 as stated: an org whose `devHubUsername` is the
defined empty string — defined, and different from the resolved default Dev
Hub username — is nevertheless NOT excluded by `filterAuthInfo`, because the
code tests truthiness, not definedness. -/
theorem filterAuthInfo_defined_devhub_cex :
    (some "" : Option String) ≠ none ∧
    (some "" : Option String) ≠ some "hub@example.com" ∧
    (fun _ : String => (⟨none, some "", none⟩ : AuthFields)) "user@example.com"
      = ⟨none, some "", none⟩ ∧
    filterAuthInfo (fun k => k)
        (fun _ => (⟨none, some "", none⟩ : AuthFields))
        (some "hub@example.com") (fun _ => none) 0
        [⟨"user@example.com", none⟩]
      = ["user@example.com"] := by
  refine ⟨by decide, by decide, rfl, by decide⟩

theorem plus_prefixed_ne_empty (x : String) : "$(plus) " ++ x ≠ "" := by
  intro h
  have hd : ("$(plus) " ++ x).data = "".data := congrArg String.data h
  rw [String.data_append] at hd
  have hplus : "$(plus) ".data = '$' :: "(plus) ".data := rfl
  have hnil : "".data = ([] : List Char) := rfl
  rw [hplus, List.cons_append, hnil] at hd
  exact List.cons_ne_nil _ _ hd

/-- C4 (amended): `setDefaultOrg` returns `"CANCEL"` exactly when the
quick-pick yields no truthy selection — it is dismissed with no selection,
or the selected item is the empty string; every selected non-empty item
yields `"CONTINUE"` with empty data and dispatches an editor command — the
i-th fixed entry (when the entries are distinct) dispatches the i-th of the
five authorization/creation commands, and any non-empty org entry outside
the fixed ones dispatches `"sfdx.force.config.set"`. -/
theorem setDefaultOrg_spec (nls : String → String)
    (authInfoList : Option (List String))
    (pick : List String → Option String) :
    ((setDefaultOrg nls authInfoList pick).responseType = "CANCEL" ↔
      (pick (quickPickListOf nls authInfoList) = none ∨
        pick (quickPickListOf nls authInfoList) = some "")) ∧
    (∀ s, pick (quickPickListOf nls authInfoList) = some s → s ≠ "" →
      (setDefaultOrg nls authInfoList pick).responseType = "CONTINUE" ∧
      (setDefaultOrg nls authInfoList pick).data = some [] ∧
      ∃ cmd, (setDefaultOrg nls authInfoList pick).command = some cmd) ∧
    ((fixedEntries nls).Nodup → ∀ i, i < 5 →
      pick (quickPickListOf nls authInfoList)
          = some ((fixedEntries nls).getD i "") →
      (setDefaultOrg nls authInfoList pick).command
        = some (orgQuickPickCommands.getD i "", [])) ∧
    (∀ s, pick (quickPickListOf nls authInfoList) = some s → s ≠ "" →
      s ∉ fixedEntries nls →
      (setDefaultOrg nls authInfoList pick).command
        = some ("sfdx.force.config.set", [splitFirstStr " - " s])) := by
  refine ⟨?_, ?_, ?_, ?_⟩
  · cases hp : pick (quickPickListOf nls authInfoList) with
    | none => simp [setDefaultOrg, hp]
    | some s =>
      simp only [setDefaultOrg, hp]
      by_cases hs : s = ""
      · simp [hs]
      · rw [if_neg hs]
        constructor
        · intro h
          exfalso
          revert h
          split_ifs <;> simp
        · intro h
          rcases h with h | h
          · exact absurd h (by simp)
          · exact absurd (by injection h) hs
  · intro s hp hne
    simp only [setDefaultOrg, hp, if_neg hne]
    split_ifs <;> simp
  · intro hnd i hi hp
    simp only [fixedEntries, List.nodup_cons, List.mem_cons,
      List.mem_singleton, List.not_mem_nil, List.nodup_nil, not_or,
      and_true, or_false] at hnd
    simp only [fixedEntries, List.getD_cons_zero, List.getD_cons_succ] at hp
    rcases i with _ | _ | _ | _ | _ | n
    · simp [setDefaultOrg, hp, orgQuickPickCommands, plus_prefixed_ne_empty]
    · obtain ⟨⟨h12, h13, h14, h15⟩, hrest⟩ := hnd
      simp [setDefaultOrg, hp, orgQuickPickCommands, plus_prefixed_ne_empty,
        Ne.symm h12]
    · obtain ⟨⟨h12, h13, h14, h15⟩, ⟨h23, h24, h25⟩, hrest⟩ := hnd
      simp [setDefaultOrg, hp, orgQuickPickCommands, plus_prefixed_ne_empty,
        Ne.symm h13, Ne.symm h23]
    · obtain ⟨⟨h12, h13, h14, h15⟩, ⟨h23, h24, h25⟩, ⟨h34, h35⟩, hrest⟩ := hnd
      simp [setDefaultOrg, hp, orgQuickPickCommands, plus_prefixed_ne_empty,
        Ne.symm h14, Ne.symm h24, Ne.symm h34]
    · obtain ⟨⟨h12, h13, h14, h15⟩, ⟨h23, h24, h25⟩, ⟨h34, h35⟩, h45, -⟩ := hnd
      simp [setDefaultOrg, hp, orgQuickPickCommands, plus_prefixed_ne_empty,
        Ne.symm h15, Ne.symm h25, Ne.symm h35, Ne.symm h45]
    · omega
  · intro s hp hne hnotin
    simp only [fixedEntries, List.mem_cons, List.mem_singleton,
      List.not_mem_nil, not_or, or_false] at hnotin
    obtain ⟨hn1, hn2, hn3, hn4, hn5⟩ := hnotin
    simp [setDefaultOrg, hp, hne, hn1, hn2, hn3, hn4, hn5]

/-- Witness for C4 (amended) at concrete inputs: a dismissed quick-pick, a
selected empty-string entry, a selection of the first fixed entry, and a
selection of a non-empty org entry. -/
theorem setDefaultOrg_spec_witness :
    (setDefaultOrg (fun k => k) (some ["myorg - user@x.com"])
        (fun _ => none)).responseType = "CANCEL" ∧
    (setDefaultOrg (fun k => k) (some [""])
        (fun _ => some "")).responseType = "CANCEL" ∧
    (setDefaultOrg (fun k => k) (some ["myorg - user@x.com"])
        (fun _ => some ("$(plus) " ++ "force_auth_web_login_authorize_org_text"))).responseType
      = "CONTINUE" ∧
    (setDefaultOrg (fun k => k) (some ["myorg - user@x.com"])
        (fun _ => some ("$(plus) " ++ "force_auth_web_login_authorize_org_text"))).data
      = some [] ∧
    (setDefaultOrg (fun k => k) (some ["myorg - user@x.com"])
        (fun _ => some ("$(plus) " ++ "force_auth_web_login_authorize_org_text"))).command
      = some ("sfdx.force.auth.web.login", []) ∧
    (setDefaultOrg (fun k => k) (some ["myorg - user@x.com"])
        (fun _ => some "myorg - user@x.com")).command
      = some ("sfdx.force.config.set", ["myorg"]) := by
  have h1 := (setDefaultOrg_spec (fun k => k) (some ["myorg - user@x.com"])
    (fun _ => none)).1.mpr (Or.inl rfl)
  have h1e := (setDefaultOrg_spec (fun k => k) (some [""])
    (fun _ => some "")).1.mpr (Or.inr rfl)
  have h2 := (setDefaultOrg_spec (fun k => k) (some ["myorg - user@x.com"])
    (fun _ => some ("$(plus) " ++ "force_auth_web_login_authorize_org_text"))).2.1
    ("$(plus) " ++ "force_auth_web_login_authorize_org_text") rfl (by decide)
  have h3 := (setDefaultOrg_spec (fun k => k) (some ["myorg - user@x.com"])
    (fun _ => some ("$(plus) " ++ "force_auth_web_login_authorize_org_text"))).2.2.1
    (by decide) 0 (by omega) rfl
  have h4 := (setDefaultOrg_spec (fun k => k) (some ["myorg - user@x.com"])
    (fun _ => some "myorg - user@x.com")).2.2.2
    "myorg - user@x.com" rfl (by decide) (by decide)
  have hsplit : splitFirstStr " - " "myorg - user@x.com" = "myorg" := by decide
  rw [hsplit] at h4
  exact ⟨h1, h1e, h2.1, h2.2.1, h3, h4⟩

/-- Counterexample for C4 as stated: the JS `if (!selection)` test is a
falsiness check, so an empty-string org entry — producible by
`filterAuthInfo` for an org whose username is empty and which has no
aliases — returns `"CANCEL"` and dispatches nothing when selected, although
the quick-pick was not dismissed. -/
theorem setDefaultOrg_empty_selection_cex :
    filterAuthInfo (fun k => k) (fun _ => (⟨none, none, none⟩ : AuthFields))
        none (fun _ => none) 0 [⟨"", none⟩] = [""] ∧
    (some "" : Option String) ≠ none ∧
    (setDefaultOrg (fun k => k) (some [""])
        (fun _ => some "")).responseType = "CANCEL" ∧
    (setDefaultOrg (fun k => k) (some [""])
        (fun _ => some "")).command = none := by
  refine ⟨by decide, by decide, by decide, by decide⟩

/-- C7 (amended): each entry of `filterAuthInfo` is the username when the
org has no aliases and otherwise the comma-joined aliases, `" - "` and the
username, with the localized expired marker appended when the expiration
date is on or before today; a selected non-empty non-fixed entry passes the
text before the first `" - "` occurrence to `"sfdx.force.config.set"`; and that
text equals the alias(es) when present and the username otherwise, provided
no occurrence of `" - "` starts inside that leading portion of the entry. -/
theorem orgEntry_split_spec (nls : String → String) (auth : OrgAuthorization)
    (expired : Bool) (authInfoList : Option (List String))
    (pick : List String → Option String) :
    ((auth.aliases = none ∨ auth.aliases = some []) →
      orgEntry nls auth expired
        = if expired then auth.username ++ expiredSuffix nls
          else auth.username) ∧
    (∀ a rest, auth.aliases = some (a :: rest) →
      orgEntry nls auth expired
        = if expired then
            joinComma (a :: rest) ++ " - " ++ auth.username ++ expiredSuffix nls
          else joinComma (a :: rest) ++ " - " ++ auth.username) ∧
    (∀ s, pick (quickPickListOf nls authInfoList) = some s → s ≠ "" →
      s ∉ fixedEntries nls →
      (setDefaultOrg nls authInfoList pick).command
        = some ("sfdx.force.config.set", [splitFirstStr " - " s])) ∧
    (∀ a rest, auth.aliases = some (a :: rest) →
      noSepBreak (" - ").data (joinComma (a :: rest)).data
          ((" - ").data
            ++ (auth.username
              ++ (if expired then expiredSuffix nls else "")).data) = true →
      splitFirstStr " - " (orgEntry nls auth expired)
        = joinComma (a :: rest)) ∧
    ((auth.aliases = none ∨ auth.aliases = some []) →
      noSepBreak (" - ").data auth.username.data
          (if expired then (expiredSuffix nls).data else []) = true →
      splitFirstStr " - " (orgEntry nls auth expired) = auth.username) := by
  refine ⟨?_, ?_, ?_, ?_, ?_⟩
  · intro h
    rcases h with h | h <;> cases expired <;> simp [orgEntry, h]
  · intro a rest h
    cases expired <;> simp [orgEntry, h]
  · intro s hp hne hnotin
    simp only [fixedEntries, List.mem_cons, List.mem_singleton,
      List.not_mem_nil, not_or, or_false] at hnotin
    obtain ⟨hn1, hn2, hn3, hn4, hn5⟩ := hnotin
    simp [setDefaultOrg, hp, hne, hn1, hn2, hn3, hn4, hn5]
  · intro a rest h hns
    have he : orgEntry nls auth expired
        = joinComma (a :: rest) ++ " - "
            ++ (auth.username ++ (if expired then expiredSuffix nls else "")) := by
      cases expired <;>
        simp [orgEntry, h, String.append_assoc]
    rw [splitFirstStr, he]
    have hd : (joinComma (a :: rest) ++ " - "
          ++ (auth.username ++ (if expired then expiredSuffix nls else ""))).data
        = (joinComma (a :: rest)).data
            ++ ((" - ").data
              ++ (auth.username
                ++ (if expired then expiredSuffix nls else "")).data) := by
      simp [String.data_append, List.append_assoc]
    rw [hd, splitFirstAux_append _ _ _ (by decide) hns]
  · intro h hns
    cases expired
    · have he : orgEntry nls auth false = auth.username := by
        rcases h with h | h <;> simp [orgEntry, h]
      rw [splitFirstStr, he,
        splitFirstAux_of_noOccur _ _ (by simpa using hns)]
    · have he : orgEntry nls auth true = auth.username ++ expiredSuffix nls := by
        rcases h with h | h <;> simp [orgEntry, h]
      rw [splitFirstStr, he]
      have hd : (auth.username ++ expiredSuffix nls).data
          = auth.username.data
              ++ ((" - ").data ++ (nls "org_expired" ++ " " ++ "❌").data) := by
        simp [expiredSuffix, String.data_append, List.append_assoc]
      have hns' : noSepBreak (" - ").data auth.username.data
          ((" - ").data ++ (nls "org_expired" ++ " " ++ "❌").data) = true := by
        have heq : (expiredSuffix nls).data
            = (" - ").data ++ (nls "org_expired" ++ " " ++ "❌").data := by
          simp [expiredSuffix, String.data_append, List.append_assoc]
        simpa [heq] using hns
      rw [hd, splitFirstAux_append _ _ _ (by decide) hns']

/-- Witness for C7 (amended) at concrete inputs: an aliased unexpired org,
an aliased expired org, a non-aliased org, and the selection of an org entry
in the quick-pick. -/
theorem orgEntry_split_spec_witness :
    orgEntry (fun k => k) ⟨"user@x.com", some ["myAlias"]⟩ false
      = "myAlias - user@x.com" ∧
    orgEntry (fun k => k) ⟨"user@x.com", some ["myAlias"]⟩ true
      = "myAlias - user@x.com - org_expired ❌" ∧
    orgEntry (fun k => k) ⟨"user@x.com", none⟩ false = "user@x.com" ∧
    (setDefaultOrg (fun k => k) (some ["myAlias - user@x.com"])
        (fun _ => some "myAlias - user@x.com")).command
      = some ("sfdx.force.config.set", [splitFirstStr " - " "myAlias - user@x.com"]) ∧
    splitFirstStr " - " (orgEntry (fun k => k) ⟨"user@x.com", some ["myAlias"]⟩ true)
      = "myAlias" ∧
    splitFirstStr " - " (orgEntry (fun k => k) ⟨"user@x.com", none⟩ false)
      = "user@x.com" := by
  have h1 := (orgEntry_split_spec (fun k => k) ⟨"user@x.com", some ["myAlias"]⟩
    false none (fun _ => none)).2.1 "myAlias" [] rfl
  have h2 := (orgEntry_split_spec (fun k => k) ⟨"user@x.com", some ["myAlias"]⟩
    true none (fun _ => none)).2.1 "myAlias" [] rfl
  have h3 := (orgEntry_split_spec (fun k => k) ⟨"user@x.com", none⟩
    false none (fun _ => none)).1 (Or.inl rfl)
  have h4 := (orgEntry_split_spec (fun k => k) ⟨"user@x.com", none⟩
    false (some ["myAlias - user@x.com"])
    (fun _ => some "myAlias - user@x.com")).2.2.1
    "myAlias - user@x.com" rfl (by decide) (by decide)
  have h5 := (orgEntry_split_spec (fun k => k) ⟨"user@x.com", some ["myAlias"]⟩
    true none (fun _ => none)).2.2.2.1 "myAlias" [] rfl (by decide)
  have h6 := (orgEntry_split_spec (fun k => k) ⟨"user@x.com", none⟩
    false none (fun _ => none)).2.2.2.2 (Or.inl rfl) (by decide)
  refine ⟨?_, ?_, ?_, h4, h5, h6⟩
  · rw [h1]
    decide
  · rw [h2]
    decide
  · rw [h3]
    decide

/-- Counterexample for C7 as stated: for an org whose username itself
contains `" - "` (and which has no aliases), the entry is that username, but
choosing it passes only the text before the first `" - "` — not the
username — to `"sfdx.force.config.set"`. -/
theorem orgEntry_split_cex :
    filterAuthInfo (fun k => k) (fun _ => (⟨none, none, none⟩ : AuthFields))
        none (fun _ => none) 0 [⟨"test - org", none⟩]
      = ["test - org"] ∧
    (setDefaultOrg (fun k => k) (some ["test - org"])
        (fun _ => some "test - org")).command
      = some ("sfdx.force.config.set", ["test"]) ∧
    "test" ≠ "test - org" := by
  refine ⟨by decide, by decide, by decide⟩

end SfdxVscode
